import Mathlib

/-!
# Verification of the `binfile` fixed-width flat-file decoder

This file is a shallow embedding, in Lean 4, of the record decoder in
`binfile/binfile.go` of the `pentops/flatfile` repository, together with
theorems settling the specification claims about it.

Modelling conventions:
* Go `[]byte` contents and Go strings are modelled as `List Nat`, one entry
  per byte (entries are byte-valued, `< 256`, on every real input).
* Go `(value, error)` returns are modelled by the `Out` type below; a Go
  runtime panic (out-of-range slice index, nil-pointer dereference) is the
  distinguished outcome `Out.panic`, which propagates without being wrapped
  by callers (a Go panic unwinds past the `error`-wrapping code paths).
* The record buffer is the only mutable store.  A Go `[]byte` value is
  modelled as `BV`: either a sub-slice aliasing the record (`BV.aliased`,
  as produced by `getBytes`, which returns `r.Record[offset:offset+length]`
  sharing the record's backing array) or a freshly allocated array
  (`BV.fresh`, as produced by a `[]byte(someString)` conversion, which
  copies).  Writing through a `BV` (`writeBV`) updates the record iff the
  value aliases it.  Functions on the Go path that can reach such a write
  return the record contents after the call as a second component.
* Standard-library collaborators (`strconv.ParseUint/ParseInt`,
  `strings.TrimSpace`/`TrimLeft`/..., `time.Parse`, and the external
  `decimal.NewFromString`) are modelled byte-exactly for ASCII data, which
  is the flat-file domain; comments at each definition state the boundary.
-/

namespace Binfile

/-- Byte list of an ASCII string literal (each char code is the byte). -/
def strBytes (s : String) : List Nat := s.data.map Char.toNat

/-- Errors returned (as Go `error` values) by the decoder. -/
inductive Err where
  /-- Models `fmt.Errorf("short record")` in `getBytes`. -/
  | shortRecord
  /-- Models `ErrMissingBool = errors.New("missing bool value")`. -/
  | missingBool
  /-- Models `fmt.Errorf("unknown missing value def for bool")`. -/
  | unknownMissingDef
  /-- Models `fmt.Errorf("type length %d less than read length %d", ...)`. -/
  | typeLength (typeLen readLen : Nat)
  /-- Models `fmt.Errorf("unknown number encoding %d", ...)`. -/
  | unknownEncoding
  /-- Models `fmt.Errorf("invalid overpunch byte: %x", last)`. -/
  | invalidOverpunch (b : Nat)
  /-- Models `fmt.Errorf("error unpacking packed decimal: %w", err)`. -/
  | packedWrap (e : Err)
  /-- Models `fmt.Errorf("error decoding overpunch decimal: %w", err)`. -/
  | overpunchWrap (e : Err)
  /-- Models `fmt.Errorf("parsing %q as uint: %w", s, err)`. -/
  | parseUintErr (s : List Nat)
  /-- Models `fmt.Errorf("parsing %q as int: %w", s, err)`. -/
  | parseIntErr (s : List Nat)
  /-- Models `fmt.Errorf("invalid decimal value: %q", s)`. -/
  | invalidDecimal (s : List Nat)
  /-- Models `fmt.Errorf("missing date format for date field")`. -/
  | missingDateFormat
  /-- Models `fmt.Errorf("invalid date value: %s", s)`. -/
  | invalidDate (s : List Nat)
  /-- Models `fmt.Errorf("invalid enum value: %q", s)`. -/
  | invalidEnum (s : List Nat)
  /-- Models `fmt.Errorf("unknown struct type %s", name)` in `ReadField`. -/
  | unknownStructType (name : String)
  /-- Models `fmt.Errorf("unknown type/kind: %s", kind)` in `ReadField`. -/
  | unknownKind
  /-- Models `fmt.Errorf("error reading field %s: %w", name, err)` in `ParseMessage`. -/
  | fieldErr (name : String) (e : Err)
  deriving DecidableEq, Repr

/-- Outcome of a Go call: a value, a returned `error`, or a runtime panic. -/
inductive Out (α : Type) where
  | ok (a : α)
  | err (e : Err)
  | panic
  deriving DecidableEq, Repr

/-- Models `flatfile.v1.Encoding` proto enum values. -/
inductive Encoding where
  | unspecified | packedDecimal | overpunch | binary
  deriving DecidableEq, Repr

/-- Models `flatfile.v1.Trim` proto enum values. -/
inductive Trim where
  | unspecified | left | right | both
  deriving DecidableEq, Repr

/-- Models `flatfile.v1.MissingIs` proto enum values. -/
inductive MissingIs where
  | unspecified | isFalse | isTrue | isError
  deriving DecidableEq, Repr

/-- Models `flatfile.v1.FixedWidth`: declared byte window of a field. -/
structure FixedWidth where
  offset : Nat
  length : Nat
  deriving DecidableEq, Repr

/-- Models `flatfile.v1.NumberField`. -/
structure NumberField where
  encoding : Encoding
  deriving DecidableEq, Repr

/-- Models `flatfile.v1.StringField`. -/
structure StringField where
  trim : Trim
  trimChars : List Nat
  deriving DecidableEq, Repr

/-- Models `flatfile.v1.BoolField`. -/
structure BoolField where
  trueValues : List (List Nat)
  falseValues : List (List Nat)
  treatMissingAs : MissingIs
  deriving DecidableEq, Repr

/-- Models `flatfile.v1.DateField`. -/
structure DateField where
  format : List Nat
  zeroVals : List (List Nat)
  deriving DecidableEq, Repr

/-- Models `flatfile.v1.Field`: the per-field extension (`tc` in the source).
Each sub-config is optional, `none` modelling a nil proto sub-message. -/
structure Field where
  fixedWidth : Option FixedWidth
  number : Option NumberField
  stringConf : Option StringField
  boolConf : Option BoolField
  date : Option DateField
  deriving DecidableEq, Repr

/-- A `Field` with only the fixed-width window set (all sub-configs nil). -/
def fwOnly (offset length : Nat) : Field :=
  ⟨some ⟨offset, length⟩, none, none, none, none⟩

/-- The `Reader` struct: the record buffer and the record-level base flag. -/
structure Reader where
  record : List Nat
  oneBased : Bool
  deriving DecidableEq, Repr

/-- A Go `[]byte` value with its provenance: a sub-slice aliasing the
record's backing array, or a freshly allocated array. -/
inductive BV where
  | aliased (off len : Nat)
  | fresh (bs : List Nat)
  deriving DecidableEq, Repr

/-- The bytes a `BV` currently denotes, given the record contents. -/
def resolve (store : List Nat) : BV → List Nat
  | .aliased off len => (store.drop off).take len
  | .fresh bs => bs

/-- Write byte `c` at index `i` of a `BV`: mutates the record iff the
value aliases it (a write through a fresh array is invisible there). -/
def writeBV (store : List Nat) (bv : BV) (i : Nat) (c : Nat) : List Nat :=
  match bv with
  | .aliased off _ => store.set (off + i) c
  | .fresh _ => store

/-- Models `Reader.getBytes`: normalizes a one-based offset by subtracting 1,
fails with `shortRecord` when `offset+length > len(record)` (the check the
source makes first), and otherwise returns the sub-slice
`r.Record[offset : offset+length]` — which panics when the normalized
offset is negative (Go slice bounds), and dereferencing a nil `FixedWidth`
panics. -/
def getBytes (r : Reader) (tc : Field) : Out BV :=
  match tc.fixedWidth with
  | none => .panic
  | some fw =>
    let offset : Int := if r.oneBased then (fw.offset : Int) - 1 else (fw.offset : Int)
    if offset + (fw.length : Int) > (r.record.length : Int) then .err .shortRecord
    else if offset < 0 then .panic
    else .ok (.aliased offset.toNat fw.length)

/-- Models `Reader.getString`: the window bytes converted to a Go string
(`string(byteVal)` copies, so the result no longer aliases the record). -/
def getString (r : Reader) (tc : Field) : Out (List Nat) :=
  match getBytes r tc with
  | .ok bv => .ok (resolve r.record bv)
  | .err e => .err e
  | .panic => .panic

/-- The six bytes `strings.TrimSpace` trims from ASCII data
(`' '`, `'\t'`, `'\n'`, `'\v'`, `'\f'`, `'\r'`). -/
def isSpaceByte (c : Nat) : Bool :=
  c == 0x20 || c == 0x09 || c == 0x0A || c == 0x0B || c == 0x0C || c == 0x0D

/-- Models `strings.TrimSpace`, byte-exact for ASCII content (multi-byte Unicode
whitespace sequences are outside the flat-file domain and not modelled). -/
def trimSpace (s : List Nat) : List Nat :=
  ((s.dropWhile isSpaceByte).reverse.dropWhile isSpaceByte).reverse

/-- Models `strings.TrimLeft s cutset`, byte-exact for an ASCII cutset. -/
def trimLeftBytes (s cutset : List Nat) : List Nat :=
  s.dropWhile (cutset.contains ·)

/-- Models `strings.TrimRight s cutset`, byte-exact for an ASCII cutset. -/
def trimRightBytes (s cutset : List Nat) : List Nat :=
  (s.reverse.dropWhile (cutset.contains ·)).reverse

/-- Models `trimString`: applies the configured trim mode with the configured trim
character set (default a single space). -/
def trimString (s : List Nat) (tc : Field) : List Nat :=
  match tc.stringConf with
  | none => s
  | some sf =>
    let trimChars := if sf.trimChars = [] then [0x20] else sf.trimChars
    match sf.trim with
    | .unspecified => s
    | .left => trimLeftBytes s trimChars
    | .right => trimRightBytes s trimChars
    | .both => trimRightBytes (trimLeftBytes s trimChars) trimChars

/-- Models `overpunchVals`: the 20-byte lookup string of the overpunch decoder —
open brace, `A`..`I`, close brace, `J`..`R` (indices 0–19). -/
def overpunchVals : List Nat :=
  [0x7B, 0x41, 0x42, 0x43, 0x44, 0x45, 0x46, 0x47, 0x48, 0x49,
   0x7D, 0x4A, 0x4B, 0x4C, 0x4D, 0x4E, 0x4F, 0x50, 0x51, 0x52]

/-- Models `DecodeOverpunch`, with the store threaded through.  `in[len(in)-1]`
panics on an empty slice.  `out := []byte(in)` is a slice-to-slice
conversion, so `out` shares `in`'s backing array and the write
`out[len(in)-1] = ...` mutates the argument in place (visible in the
record when the argument aliases it). -/
def DecodeOverpunchSt (store : List Nat) (bv : BV) : Out (List Nat) × List Nat :=
  let bs := resolve store bv
  match bs.getLast? with
  | none => (.panic, store)
  | some last =>
    match overpunchVals.findIdx? (· == last) with
    | none => (.err (.invalidOverpunch last), store)
    | some i =>
      let store' := writeBV store bv (bs.length - 1) (i % 10 + 0x30)
      (.ok ((if i > 9 then [0x2D] else []) ++ bs.dropLast ++ [i % 10 + 0x30]), store')

/-- Models `DecodeOverpunch` on a freshly allocated argument (the only way the
decoder pipeline calls it, via a `[]byte(string)` conversion). -/
def DecodeOverpunch (bs : List Nat) : Out (List Nat) :=
  (DecodeOverpunchSt [] (.fresh bs)).1

/-- The per-byte loop of `UnpackPacked`: splits each byte into high/low
nibbles and emits them.  The last byte's low nibble is a digit only when
`< 0x0A`, otherwise it is the sign nibble (`0x0B`/`0x0D` mean negative);
the first byte's low nibble is discarded when `>= 0x0A` (and the byte is
not also the last).  Returns the emitted nibbles and the negative flag. -/
def unpackCore (first : Bool) : List Nat → List Nat × Bool
  | [] => ([], false)
  | [ab] =>
    let a := ab / 16
    let b := ab % 16
    if b < 0x0A then ([a, b], false)
    else ([a], b == 0x0D || b == 0x0B)
  | ab :: rest =>
    let a := ab / 16
    let b := ab % 16
    let tail := unpackCore false rest
    if first && decide (b ≥ 0x0A) then (a :: tail.1, tail.2)
    else (a :: b :: tail.1, tail.2)

/-- Models `UnpackPacked`: emits the nibbles via `unpackCore`, then skips zero
nibbles until the first nonzero one (`hadAny`), renders each kept nibble as
`nibble + 0x30`, and prepends `'-'` when negative.  The Go function's
`error` result is always nil. -/
def UnpackPacked (bs : List Nat) : Out (List Nat) :=
  let core := unpackCore true bs
  .ok ((if core.2 then [0x2D] else []) ++
       (core.1.dropWhile (· == 0)).map (· + 0x30))

/-- Models `numberFormat`: the field's declared encoding, defaulting to
unspecified when the number config is nil. -/
def numberFormat (tc : Field) : Encoding :=
  match tc.number with
  | some nf => if nf.encoding = .unspecified then .unspecified else nf.encoding
  | none => .unspecified

/-- Models `Reader.getNumberString`: the window as text, transformed per the
declared encoding.  Second component: the record contents after the call
(the overpunch decoder receives a fresh copy, made by the
`[]byte(strVal)` conversion of the already-copied string). -/
def getNumberString (r : Reader) (tc : Field) : Out (List Nat) × List Nat :=
  match getString r tc with
  | .err e => (.err e, r.record)
  | .panic => (.panic, r.record)
  | .ok strVal =>
    match tc.number with
    | none => (.ok (trimSpace strVal), r.record)
    | some num =>
      match num.encoding with
      | .unspecified => (.ok (trimSpace strVal), r.record)
      | .packedDecimal =>
        match UnpackPacked strVal with
        | .ok v => (.ok v, r.record)
        | .err e => (.err (.packedWrap e), r.record)
        | .panic => (.panic, r.record)
      | .overpunch =>
        match DecodeOverpunchSt r.record (.fresh strVal) with
        | (.ok v, rec') => (.ok v, rec')
        | (.err e, rec') => (.err (.overpunchWrap e), rec')
        | (.panic, rec') => (.panic, rec')
      | .binary => (.err .unknownEncoding, r.record)

/-- ASCII digit test, as in `strconv`. -/
def isDigitByte (c : Nat) : Bool := decide (0x30 ≤ c) && decide (c ≤ 0x39)

/-- Numeric value of a digit-byte string. -/
def digitsVal (s : List Nat) : Nat := s.foldl (fun acc c => acc * 10 + (c - 0x30)) 0

/-- Models `strconv.ParseUint(s, 10, bits)`: decimal digits only (no sign), value
must fit in `bits` bits; `none` models a non-nil error (syntax or range). -/
def parseUintGo (s : List Nat) (bits : Nat) : Option Nat :=
  if s = [] then none
  else if s.all isDigitByte then
    if digitsVal s < 2 ^ bits then some (digitsVal s) else none
  else none

/-- Models `strconv.ParseInt(s, 10, bits)`: optional sign, then decimal digits;
range `[-2^(bits-1), 2^(bits-1) - 1]`. -/
def parseIntGo (s : List Nat) (bits : Nat) : Option Int :=
  match s with
  | [] => none
  | c :: rest =>
    let neg := c == 0x2D
    let digits := if c == 0x2D || c == 0x2B then rest else s
    if digits = [] then none
    else if digits.all isDigitByte then
      if neg then
        if digitsVal digits ≤ 2 ^ (bits - 1) then some (-(digitsVal digits : Int)) else none
      else
        if digitsVal digits < 2 ^ (bits - 1) then some ((digitsVal digits : Int)) else none
    else none

/-- Leading run of digit bytes and the remainder. -/
def splitDigits : List Nat → List Nat × List Nat
  | [] => ([], [])
  | c :: rest =>
    if isDigitByte c then
      let p := splitDigits rest
      (c :: p.1, p.2)
    else ([], c :: rest)

/-- Modelled from the external dependency `decimal.NewFromString`
(shopspring), at its interface: an optional sign, an integer digit run and
an optional `.`-separated fraction digit run (at least one digit in total,
and a dot requires fraction digits), then an optional `e`/`E` exponent
with optional sign and at least one digit.  The value is returned as
(signed coefficient, power-of-ten exponent).  No claim depends on its
fine structure; decoders only test parse success and carry the value. -/
def decimalParse (s : List Nat) : Option (Int × Int) :=
  let signed : Bool × List Nat :=
    match s with
    | 0x2D :: rest => (true, rest)
    | 0x2B :: rest => (false, rest)
    | _ => (false, s)
  let ip := splitDigits signed.2
  let frac : Option (List Nat × List Nat) :=
    match ip.2 with
    | 0x2E :: rest =>
      let fp := splitDigits rest
      if fp.1 = [] then none else some (fp.1, fp.2)
    | _ => some ([], ip.2)
  match frac with
  | none => none
  | some (fp, rest2) =>
    if ip.1 = [] ∧ fp = [] then none
    else
      let coef : Int := if signed.1 then -(digitsVal (ip.1 ++ fp) : Int) else (digitsVal (ip.1 ++ fp) : Int)
      match rest2 with
      | [] => some (coef, -(fp.length : Int))
      | e :: rest3 =>
        if e = 0x65 ∨ e = 0x45 then
          let esigned : Bool × List Nat :=
            match rest3 with
            | 0x2D :: r => (true, r)
            | 0x2B :: r => (false, r)
            | _ => (false, rest3)
          let ed := splitDigits esigned.2
          if ed.1 = [] ∨ ed.2 ≠ [] then none
          else
            let ev : Int := if esigned.1 then -(digitsVal ed.1 : Int) else (digitsVal ed.1 : Int)
            some (coef, ev - (fp.length : Int))
        else none

/-- Models `strings.Replace(s, pat, rep, 1)`: replace the first occurrence. -/
def replaceFirst : List Nat → List Nat → List Nat → List Nat
  | [], _, _ => []
  | c :: rest, pat, rep =>
    if pat.isPrefixOf (c :: rest) then rep ++ (c :: rest).drop pat.length
    else c :: replaceFirst rest pat rep

/-- Models `goTimeFormat`: rewrites the schema's date format into a Go reference
layout, replacing the first occurrence of each placeholder in the source's
order (`YYYY`→`2006`, `YY`→`06`, `MM`→`01`, `DD`→`02`). -/
def goTimeFormat (f : List Nat) : List Nat :=
  replaceFirst
    (replaceFirst
      (replaceFirst
        (replaceFirst f (strBytes "YYYY") (strBytes "2006"))
        (strBytes "YY") (strBytes "06"))
      (strBytes "MM") (strBytes "01"))
    (strBytes "DD") (strBytes "02")

/-- The character class of the source's `reNumbers = [MDY]` regex. -/
def isMDYByte (c : Nat) : Bool := c == 0x4D || c == 0x44 || c == 0x59

/-- Exactly two digit bytes (Go `getnum` with `fixed`). -/
def num2 : List Nat → Option (Nat × List Nat)
  | a :: b :: rest =>
    if isDigitByte a && isDigitByte b then some ((a - 0x30) * 10 + (b - 0x30), rest)
    else none
  | _ => none

/-- Exactly four digit bytes (Go `getnum4`). -/
def num4 : List Nat → Option (Nat × List Nat)
  | a :: b :: c :: d :: rest =>
    if isDigitByte a && isDigitByte b && isDigitByte c && isDigitByte d then
      some ((a - 0x30) * 1000 + (b - 0x30) * 100 + (c - 0x30) * 10 + (d - 0x30), rest)
    else none
  | _ => none

/-- The layout-walking loop of `time.Parse`, modelled for the reference
chunks a `goTimeFormat` layout can contain (`2006`, `06`, `01`, `02`;
every other layout byte is a literal that the value must match).
Defaults (year 0, month 1, day 1) are Go's. -/
def parseLayout : List Nat → List Nat → Nat → Nat → Nat → Option (Nat × Nat × Nat)
  | [], value, y, m, d => if value = [] then some (y, m, d) else none
  | 0x32 :: 0x30 :: 0x30 :: 0x36 :: lrest, value, _, m, d =>
    match num4 value with
    | some (y', vrest) => parseLayout lrest vrest y' m d
    | none => none
  | 0x30 :: 0x36 :: lrest, value, _, m, d =>
    match num2 value with
    | some (yy, vrest) => parseLayout lrest vrest (if 69 ≤ yy then 1900 + yy else 2000 + yy) m d
    | none => none
  | 0x30 :: 0x31 :: lrest, value, y, _, d =>
    match num2 value with
    | some (m', vrest) => parseLayout lrest vrest y m' d
    | none => none
  | 0x30 :: 0x32 :: lrest, value, y, m, _ =>
    match num2 value with
    | some (d', vrest) => parseLayout lrest vrest y m d'
    | none => none
  | c :: lrest, value, y, m, d =>
    match value with
    | v :: vrest => if v = c then parseLayout lrest vrest y m d else none
    | [] => none

/-- Gregorian leap-year test, as in Go `time`. -/
def isLeap (y : Nat) : Bool := y % 4 == 0 && (y % 100 != 0 || y % 400 == 0)

/-- Days in a month, as in Go `time.daysIn`. -/
def daysIn (y m : Nat) : Nat :=
  if m = 2 then (if isLeap y then 29 else 28)
  else if m = 4 ∨ m = 6 ∨ m = 9 ∨ m = 11 then 30
  else 31

/-- Models `time.Parse(layout, value)` restricted to date layouts: syntactic walk
then Go's range validation (month 1–12, day 1–`daysIn`); the resulting
`Time`'s `Date()` returns exactly the validated components. -/
def timeParse (layout value : List Nat) : Option (Nat × Nat × Nat) :=
  match parseLayout layout value 0 1 1 with
  | none => none
  | some (y, m, d) =>
    if m < 1 ∨ 12 < m then none
    else if d < 1 ∨ daysIn y m < d then none
    else some (y, m, d)

/-- A decoded field value (the payload of a `protoreflect.Value`). -/
inductive Value where
  | str (s : List Nat)
  | strVal (s : List Nat)
  | boolv (b : Bool)
  | enum (n : Int)
  | u32 (v : Nat)
  | u64 (v : Nat)
  | i32 (v : Int)
  | i64 (v : Int)
  | decimal (coef : Int) (exp : Int)
  | date (y m d : Nat)
  deriving DecidableEq, Repr

/-- Models `Reader.readString`: trimmed text, always present. -/
def readString (r : Reader) (tc : Field) : Out (Option Value) :=
  match getString r tc with
  | .ok s => .ok (some (.str (trimString s tc)))
  | .err e => .err e
  | .panic => .panic

/-- Models `Reader.readStringValue`: trimmed text wrapped in a StringValue;
empty-after-trim yields absent. -/
def readStringValue (r : Reader) (tc : Field) : Out (Option Value) :=
  match getString r tc with
  | .ok s =>
    if trimString s tc = [] then .ok none
    else .ok (some (.strVal (trimString s tc)))
  | .err e => .err e
  | .panic => .panic

/-- The fallback `BoolField` built when the field's bool config is nil. -/
def defaultBoolField : BoolField :=
  ⟨[strBytes "T", strBytes "t", strBytes "Y", strBytes "y", strBytes "1"],
   [strBytes "F", strBytes "f", strBytes "N", strBytes "n", strBytes "0"],
   .isError⟩

/-- Models `Reader.readBoolValue`: exact (untrimmed) token matching against the
configured true/false token lists, then the missing-policy.  (The source's
`default` arm for an out-of-range enum number is unrepresentable here.) -/
def readBoolValue (r : Reader) (tc : Field) : Out (Option Value) :=
  match getString r tc with
  | .ok s =>
    let bf := tc.boolConf.getD defaultBoolField
    if s ∈ bf.trueValues then .ok (some (.boolv true))
    else if s ∈ bf.falseValues then .ok (some (.boolv false))
    else
      match bf.treatMissingAs with
      | .unspecified => .ok (some (.boolv false))
      | .isFalse => .ok (some (.boolv false))
      | .isTrue => .ok (some (.boolv true))
      | .isError => .err .missingBool
  | .err e => .err e
  | .panic => .panic

/-- Models `Reader.readDecimal`: number string, empty yields absent, otherwise an
arbitrary-precision decimal parse. -/
def readDecimal (r : Reader) (tc : Field) : Out (Option Value) × List Nat :=
  match getNumberString r tc with
  | (.err e, rec) => (.err e, rec)
  | (.panic, rec) => (.panic, rec)
  | (.ok s, rec) =>
    if s = [] then (.ok none, rec)
    else
      match decimalParse s with
      | none => (.err (.invalidDecimal s), rec)
      | some (c, e) => (.ok (some (.decimal c e)), rec)

/-- The `emptyVals` sentinel list computed in `readDate`: an all-space
string of the format's length, the format with each `[MDY]` byte replaced
by `0`, the same replaced by space, then the schema's explicit zero
values. -/
def dateEmptyVals (df : DateField) : List (List Nat) :=
  [List.replicate df.format.length 0x20,
   df.format.map (fun c => if isMDYByte c then 0x30 else c),
   df.format.map (fun c => if isMDYByte c then 0x20 else c)] ++ df.zeroVals

/-- Models `Reader.readDate`: requires a non-empty format; raw (untrimmed) window
text; sentinel match yields absent; otherwise a strict parse against the
`goTimeFormat` layout, whose failure is an invalid-date error. -/
def readDate (r : Reader) (tc : Field) : Out (Option Value) :=
  match tc.date with
  | none => .err .missingDateFormat
  | some df =>
    if df.format = [] then .err .missingDateFormat
    else
      match getString r tc with
      | .err e => .err e
      | .panic => .panic
      | .ok s =>
        if s ∈ dateEmptyVals df then .ok none
        else
          match timeParse (goTimeFormat df.format) s with
          | none => .err (.invalidDate s)
          | some (y, m, d) => .ok (some (.date y m d))

/-- An enum value descriptor: its proto number and the `flatfile.v1.Enum`
extension's key (`none` models a value without the extension, which the
scan skips). -/
structure EnumVal where
  number : Int
  key : Option (List Nat)
  deriving DecidableEq, Repr

/-- The scan loop of `readEnum`: first value (in declared order) whose
trimmed key equals the extracted text. -/
def findEnum (s : List Nat) : List EnumVal → Option Int
  | [] => none
  | v :: rest =>
    match v.key with
    | none => findEnum s rest
    | some k => if trimSpace k = s then some v.number else findEnum s rest

/-- Models `Reader.readEnum`: scan for a trimmed key equal to the raw extracted
text; otherwise absent when the trimmed text is empty, else an
invalid-enum-value error. -/
def readEnum (r : Reader) (tc : Field) (vals : List EnumVal) : Out (Option Value) :=
  match getString r tc with
  | .ok s =>
    match findEnum s vals with
    | some n => .ok (some (.enum n))
    | none =>
      if trimSpace s = [] then .ok none
      else .err (.invalidEnum s)
  | .err e => .err e
  | .panic => .panic

/-- Models `Reader.unsignedStringNumber`: number string with leading spaces and
zeros stripped; empty-after-strip yields (0, not-set). -/
def unsignedStringNumber (r : Reader) (tc : Field) (size : Nat) :
    Out (Nat × Bool) × List Nat :=
  match getNumberString r tc with
  | (.err e, rec) => (.err e, rec)
  | (.panic, rec) => (.panic, rec)
  | (.ok s, rec) =>
    let s' := trimLeftBytes s [0x20, 0x30]
    if s' = [] then (.ok (0, false), rec)
    else
      match parseUintGo s' size with
      | none => (.err (.parseUintErr s'), rec)
      | some v => (.ok (v, true), rec)

/-- Models `Reader.signedStringNumber`: as `unsignedStringNumber` with a signed
parse. -/
def signedStringNumber (r : Reader) (tc : Field) (size : Nat) :
    Out (Int × Bool) × List Nat :=
  match getNumberString r tc with
  | (.err e, rec) => (.err e, rec)
  | (.panic, rec) => (.panic, rec)
  | (.ok s, rec) =>
    let s' := trimLeftBytes s [0x20, 0x30]
    if s' = [] then (.ok (0, false), rec)
    else
      match parseIntGo s' size with
      | none => (.err (.parseIntErr s'), rec)
      | some v => (.ok (v, true), rec)

/-- Go `copy(dst[start:], src)` as a pure list result. -/
def copyAt (dst : List Nat) (start : Nat) (src : List Nat) : List Nat :=
  dst.take start ++ src.take (dst.length - start) ++ dst.drop (start + src.length)

/-- Models `Reader.leftPaddedBytes`: errors when the declared window is wider than
the type width; otherwise returns the window itself when the widths match,
or a zeroed buffer of the type width with the window copied at index
`readLength - len(byteVal)` — which is always 0, since `getBytes` returns
exactly `readLength` bytes, so despite the function's name the window
lands at the FRONT and the zero padding on the RIGHT. -/
def leftPaddedBytes (r : Reader) (tc : Field) (typeLength : Nat) : Out (List Nat) :=
  match tc.fixedWidth with
  | none => .panic
  | some fw =>
    let readLength := fw.length
    if typeLength < readLength then .err (.typeLength typeLength readLength)
    else
      match getBytes r tc with
      | .err e => .err e
      | .panic => .panic
      | .ok bv =>
        let byteVal := resolve r.record bv
        if typeLength = readLength then .ok byteVal
        else .ok (copyAt (List.replicate typeLength 0) (readLength - byteVal.length) byteVal)

/-- Models `Reader.readUint32`: BINARY encoding takes `byteVal[0]` of the padded
buffer (only the first byte!); otherwise the stripped decimal string. -/
def readUint32 (r : Reader) (tc : Field) : Out (Option Value) × List Nat :=
  if numberFormat tc = .binary then
    (match leftPaddedBytes r tc (32 / 8) with
     | .err e => .err e
     | .panic => .panic
     | .ok [] => .panic
     | .ok (v :: _) => .ok (some (.u32 v)), r.record)
  else
    match unsignedStringNumber r tc 32 with
    | (.err e, rec) => (.err e, rec)
    | (.panic, rec) => (.panic, rec)
    | (.ok (_, false), rec) => (.ok none, rec)
    | (.ok (v, true), rec) => (.ok (some (.u32 v)), rec)

/-- Models `Reader.readUint64`: as `readUint32` with an 8-byte type width. -/
def readUint64 (r : Reader) (tc : Field) : Out (Option Value) × List Nat :=
  if numberFormat tc = .binary then
    (match leftPaddedBytes r tc (64 / 8) with
     | .err e => .err e
     | .panic => .panic
     | .ok [] => .panic
     | .ok (v :: _) => .ok (some (.u64 v)), r.record)
  else
    match unsignedStringNumber r tc 64 with
    | (.err e, rec) => (.err e, rec)
    | (.panic, rec) => (.panic, rec)
    | (.ok (_, false), rec) => (.ok none, rec)
    | (.ok (v, true), rec) => (.ok (some (.u64 v)), rec)

/-- Models `Reader.readInt32`: BINARY takes `int32(byteVal[0])` (zero-extended
byte); otherwise the stripped signed decimal string. -/
def readInt32 (r : Reader) (tc : Field) : Out (Option Value) × List Nat :=
  if numberFormat tc = .binary then
    (match leftPaddedBytes r tc (32 / 8) with
     | .err e => .err e
     | .panic => .panic
     | .ok [] => .panic
     | .ok (v :: _) => .ok (some (.i32 (v : Int))), r.record)
  else
    match signedStringNumber r tc 32 with
    | (.err e, rec) => (.err e, rec)
    | (.panic, rec) => (.panic, rec)
    | (.ok (_, false), rec) => (.ok none, rec)
    | (.ok (v, true), rec) => (.ok (some (.i32 v)), rec)

/-- Models `Reader.readInt64`: as `readInt32` with an 8-byte type width. -/
def readInt64 (r : Reader) (tc : Field) : Out (Option Value) × List Nat :=
  if numberFormat tc = .binary then
    (match leftPaddedBytes r tc (64 / 8) with
     | .err e => .err e
     | .panic => .panic
     | .ok [] => .panic
     | .ok (v :: _) => .ok (some (.i64 (v : Int))), r.record)
  else
    match signedStringNumber r tc 64 with
    | (.err e, rec) => (.err e, rec)
    | (.panic, rec) => (.panic, rec)
    | (.ok (_, false), rec) => (.ok none, rec)
    | (.ok (v, true), rec) => (.ok (some (.i64 v)), rec)

/-- The well-known message types `ReadField` dispatches on by full name. -/
inductive MsgType where
  | stringValue
  | boolValue
  | decimalMsg
  | dateMsg
  | otherMsg (name : String)
  deriving DecidableEq, Repr

/-- A `protoreflect` field kind, restricted to what the dispatch handles
(with the data each branch consumes attached). -/
inductive Kind where
  | message (m : MsgType)
  | stringKind
  | boolKind
  | enumKind (vals : List EnumVal)
  | uint32Kind
  | uint64Kind
  | int32Kind
  | int64Kind
  | otherKind
  deriving DecidableEq, Repr

/-- A field descriptor: its full name, kind, and the `flatfile.v1.field`
extension (`none` models a field without the extension). -/
structure FieldDesc where
  name : String
  kind : Kind
  ext : Option Field
  deriving DecidableEq, Repr

/-- Models `Reader.ReadField`: a field without the extension or without a
fixed-width window is skipped (absent, no error); otherwise dispatch on
the field's kind.  Second component: record contents after the call. -/
def ReadField (r : Reader) (fd : FieldDesc) : Out (Option Value) × List Nat :=
  match fd.ext with
  | none => (.ok none, r.record)
  | some tc =>
    match tc.fixedWidth with
    | none => (.ok none, r.record)
    | some _ =>
      match fd.kind with
      | .message .stringValue => (readStringValue r tc, r.record)
      | .message .boolValue => (readBoolValue r tc, r.record)
      | .message .decimalMsg => readDecimal r tc
      | .message .dateMsg => (readDate r tc, r.record)
      | .message (.otherMsg n) => (.err (.unknownStructType n), r.record)
      | .stringKind => (readString r tc, r.record)
      | .boolKind => (readBoolValue r tc, r.record)
      | .enumKind vals => (readEnum r tc vals, r.record)
      | .uint32Kind => readUint32 r tc
      | .uint64Kind => readUint64 r tc
      | .int32Kind => readInt32 r tc
      | .int64Kind => readInt64 r tc
      | .otherKind => (.err .unknownKind, r.record)

/-- The field loop of `ParseMessage`: declared order; a returned error is
wrapped with the field's full name and aborts; a panic propagates
unwrapped; an absent result sets nothing.  Successful decodes are
collected, in order, as (name, value) set operations on the output
record. -/
def parseLoop : Reader → List FieldDesc → Out (List (String × Value)) × List Nat
  | r, [] => (.ok [], r.record)
  | r, fd :: rest =>
    match ReadField r fd with
    | (.panic, rec') => (.panic, rec')
    | (.err e, rec') => (.err (.fieldErr fd.name e), rec')
    | (.ok none, rec') => parseLoop ⟨rec', r.oneBased⟩ rest
    | (.ok (some v), rec') =>
      match parseLoop ⟨rec', r.oneBased⟩ rest with
      | (.ok sets, rec'') => (.ok ((fd.name, v) :: sets), rec'')
      | (.err e, rec'') => (.err e, rec'')
      | (.panic, rec'') => (.panic, rec'')

/-- A message descriptor: the record-level one-based flag (from the
`flatfile.v1.message` option) and the ordered field list. -/
structure MsgDesc where
  oneBased : Bool
  fields : List FieldDesc

/-- Models `ParseMessage`: build the reader and run the field loop. -/
def ParseMessage (md : MsgDesc) (data : List Nat) : Out (List (String × Value)) × List Nat :=
  parseLoop ⟨data, md.oneBased⟩ md.fields

/-- Modelled from the spec (refinement reference for the BINARY encoding,
stated only to exhibit the divergence): the window is "treated as a raw
big-endian integer occupying the low-order bytes of a fixed target width
(4 or 8 bytes); if the declared window is narrower than the target width,
it is left-padded with zero bytes before being reinterpreted as an
integer". -/
def specBinaryBigEndian (window : List Nat) (typeLength : Nat) : Nat :=
  (List.replicate (typeLength - window.length) 0 ++ window).foldl
    (fun acc b => acc * 256 + b) 0

/-- The same field config with its window offset increased by 1: a
one-based declaration of the same physical window. -/
def bumpField (tc : Field) : Field :=
  { tc with fixedWidth := tc.fixedWidth.map (fun fw => ⟨fw.offset + 1, fw.length⟩) }

/-- The same field descriptor with its window offset increased by 1. -/
def bumpDesc (fd : FieldDesc) : FieldDesc :=
  { fd with ext := fd.ext.map bumpField }

/-- The normalized (zero-based) window offset, as a mathematical integer:
one-based offsets are reduced by 1. -/
def normOff (ob : Bool) (off : Nat) : Int :=
  if ob then (off : Int) - 1 else (off : Int)

/-- Whether an enum value's configured key matches, after key trimming, the
extracted text — the test `readEnum`'s scan applies to each value (values
without the extension never match). -/
def keyMatches (s : List Nat) (v : EnumVal) : Bool :=
  match v.key with
  | none => false
  | some k => decide (trimSpace k = s)

/-- The `TestMultiType` schema of the repository's test suite. -/
def multiTypeMsg : MsgDesc :=
  ⟨true,
   [⟨"record_type", .enumKind [⟨0, none⟩, ⟨1, some (strBytes "F")⟩, ⟨2, some (strBytes "B")⟩],
     some (fwOnly 1 1)⟩,
    ⟨"file_creation_date", .message .dateMsg,
     some ⟨some ⟨2, 10⟩, none, none, none, some ⟨strBytes "YYYY-MM-DD", []⟩⟩⟩,
    ⟨"str", .stringKind, some ⟨some ⟨12, 5⟩, none, some ⟨.both, []⟩, none, none⟩⟩,
    ⟨"flagged", .boolKind,
     some ⟨some ⟨17, 1⟩, none, none, some ⟨[strBytes "X"], [strBytes " "], .isError⟩, none⟩⟩]⟩

/-! ## Sanity checks mirroring the repository's test suite -/

example : getString ⟨strBytes "abcde", false⟩ (fwOnly 1 3) = .ok (strBytes "bcd") := by decide

example : UnpackPacked [0x12, 0x34, 0x5D] = .ok (strBytes "-12345") := by decide

example :
    ParseMessage multiTypeMsg (strBytes "F2003-01-0212345X") =
      (.ok [("record_type", .enum 1), ("file_creation_date", .date 2003 1 2),
            ("str", .str (strBytes "12345")), ("flagged", .boolv true)],
       strBytes "F2003-01-0212345X") := by decide

example :
    ParseMessage multiTypeMsg (strBytes "                 ") =
      (.ok [("str", .str []), ("flagged", .boolv false)],
       strBytes "                 ") := by decide

example :
    (readDecimal ⟨strBytes "0000123.45", false⟩ ⟨some ⟨0, 10⟩, some ⟨.unspecified⟩, none, none, none⟩).1 =
      .ok (some (.decimal 12345 (-2))) := by decide

example :
    (readDecimal ⟨strBytes "    123.45", false⟩ ⟨some ⟨0, 10⟩, some ⟨.unspecified⟩, none, none, none⟩).1 =
      .ok (some (.decimal 12345 (-2))) := by decide

example :
    (readUint32 ⟨[0x2A], false⟩ ⟨some ⟨0, 1⟩, some ⟨.binary⟩, none, none, none⟩).1 =
      .ok (some (.u32 0x2A)) := by decide

example :
    (readInt64 ⟨[0x80], false⟩ ⟨some ⟨0, 1⟩, some ⟨.binary⟩, none, none, none⟩).1 =
      .ok (some (.i64 128)) := by decide

example :
    (readInt32 ⟨strBytes "-012", false⟩ ⟨some ⟨0, 4⟩, some ⟨.unspecified⟩, none, none, none⟩).1 =
      .ok (some (.i32 (-12))) := by decide

example :
    (readUint32 ⟨strBytes "    ", false⟩ ⟨some ⟨0, 4⟩, some ⟨.unspecified⟩, none, none, none⟩).1 =
      .ok none := by decide

/-! ## Frame lemmas: the record contents after each call

The decoder mutates a byte array in exactly one place (`DecodeOverpunch`'s
in-place write), and the pipeline only ever hands that function a fresh
copy, so the record component threaded through the definitions above is
always returned unchanged. -/

theorem decodeOverpunchSt_fresh (store bs : List Nat) :
    (DecodeOverpunchSt store (.fresh bs)).2 = store := by
  unfold DecodeOverpunchSt
  cases h : bs.getLast? with
  | none => simp [resolve, h]
  | some last =>
    cases h2 : overpunchVals.findIdx? (· == last) with
    | none => simp [resolve, h, h2]
    | some i => simp [resolve, h, h2, writeBV]

theorem getNumberString_record (r : Reader) (tc : Field) :
    (getNumberString r tc).2 = r.record := by
  unfold getNumberString
  split
  · rfl
  · rfl
  · rename_i s _
    split
    · rfl
    · split
      · rfl
      · split <;> rfl
      · split
        all_goals
          rename_i heq
          have h := decodeOverpunchSt_fresh r.record s
          rw [heq] at h
          simpa using h
      · rfl

theorem readDecimal_record (r : Reader) (tc : Field) :
    (readDecimal r tc).2 = r.record := by
  unfold readDecimal
  have h := getNumberString_record r tc
  split <;> rename_i heq <;> rw [heq] at h <;> simp only at h <;> subst h
  · rfl
  · rfl
  · split
    · rfl
    · split <;> rfl

theorem unsignedStringNumber_record (r : Reader) (tc : Field) (size : Nat) :
    (unsignedStringNumber r tc size).2 = r.record := by
  unfold unsignedStringNumber
  have h := getNumberString_record r tc
  split <;> rename_i heq <;> rw [heq] at h <;> simp only at h <;> subst h
  · rfl
  · rfl
  · dsimp only
    split
    · rfl
    · split <;> rfl

theorem signedStringNumber_record (r : Reader) (tc : Field) (size : Nat) :
    (signedStringNumber r tc size).2 = r.record := by
  unfold signedStringNumber
  have h := getNumberString_record r tc
  split <;> rename_i heq <;> rw [heq] at h <;> simp only at h <;> subst h
  · rfl
  · rfl
  · dsimp only
    split
    · rfl
    · split <;> rfl

theorem readUint32_record (r : Reader) (tc : Field) :
    (readUint32 r tc).2 = r.record := by
  unfold readUint32
  split
  · rfl
  · have h := unsignedStringNumber_record r tc 32
    split <;> rename_i heq <;> rw [heq] at h <;> simpa using h

theorem readUint64_record (r : Reader) (tc : Field) :
    (readUint64 r tc).2 = r.record := by
  unfold readUint64
  split
  · rfl
  · have h := unsignedStringNumber_record r tc 64
    split <;> rename_i heq <;> rw [heq] at h <;> simpa using h

theorem readInt32_record (r : Reader) (tc : Field) :
    (readInt32 r tc).2 = r.record := by
  unfold readInt32
  split
  · rfl
  · have h := signedStringNumber_record r tc 32
    split <;> rename_i heq <;> rw [heq] at h <;> simpa using h

theorem readInt64_record (r : Reader) (tc : Field) :
    (readInt64 r tc).2 = r.record := by
  unfold readInt64
  split
  · rfl
  · have h := signedStringNumber_record r tc 64
    split <;> rename_i heq <;> rw [heq] at h <;> simpa using h

theorem ReadField_record (r : Reader) (fd : FieldDesc) :
    (ReadField r fd).2 = r.record := by
  unfold ReadField
  split
  · rfl
  · split
    · rfl
    · split
      · rfl
      · rfl
      · exact readDecimal_record r _
      · rfl
      · rfl
      · rfl
      · rfl
      · rfl
      · exact readUint32_record r _
      · exact readUint64_record r _
      · exact readInt32_record r _
      · exact readInt64_record r _
      · rfl

theorem parseLoop_record (r : Reader) (fds : List FieldDesc) :
    (parseLoop r fds).2 = r.record := by
  induction fds generalizing r with
  | nil => rfl
  | cons fd rest ih =>
    have hrf := ReadField_record r fd
    rcases hR : ReadField r fd with ⟨res, rec'⟩
    rw [hR] at hrf
    simp only at hrf
    subst hrf
    simp only [parseLoop]
    rw [hR]
    cases res with
    | panic => rfl
    | err e => rfl
    | ok v =>
      cases v with
      | none => exact ih ⟨r.record, r.oneBased⟩
      | some v =>
        have h2 := ih (⟨r.record, r.oneBased⟩ : Reader)
        rcases h3 : parseLoop (⟨r.record, r.oneBased⟩ : Reader) rest with ⟨res2, rec''⟩
        rw [h3] at h2
        simp only at h2
        subst h2
        dsimp only
        rw [h3]
        cases res2 <;> rfl

/-- C2: For every schema and record buffer, decoding never mutates the
record buffer — after a decode call (successful or failed) the buffer
equals its value before the call; in particular an OVERPUNCH field's
in-place write lands on the fresh copy made by the string conversions,
never on the record. -/
theorem c2_decode_never_mutates_record (md : MsgDesc) (data : List Nat) :
    (ParseMessage md data).2 = data := by
  unfold ParseMessage
  exact parseLoop_record ⟨data, md.oneBased⟩ md.fields

/-! ## C3: behaviour of the packed-decimal unpacker on an empty window -/

/-- C3 counterexample: on an empty input window `UnpackPacked` does NOT
fail — it returns success (a nil Go error) with the empty literal,
because the per-byte loop simply never runs. -/
theorem c3_counterexample_empty_packed_succeeds : UnpackPacked [] = .ok [] := by decide

/-- C3 (amended): the packed-decimal unpacker never returns an error at
all; in particular an empty input window succeeds with the empty
literal. -/
theorem c3_amended_unpack_never_fails :
    (∀ bs : List Nat, ∃ out, UnpackPacked bs = .ok out) ∧ UnpackPacked [] = .ok [] :=
  ⟨fun _ => ⟨_, rfl⟩, rfl⟩

/-! ## C4: leading-zero stripping in the packed-decimal unpacker -/

/-- C4 counterexample: the byte `0x0C` emits the single digit nibble `0`
(low nibble `0xC` is a non-negative sign), and the stripping loop removes
every zero digit, so the unpacked literal is empty — not a literal
containing the digit `0` as the claim states. -/
theorem c4_counterexample_all_zero_strips_to_empty :
    UnpackPacked [0x0C] = .ok [] := by decide

/-- C4 (amended): leading-zero stripping has no one-digit floor — an input
whose emitted digit nibbles are all zero yields a literal with no digit
characters (just the sign, if negative); an input with at least one
nonzero emitted nibble keeps that nibble and everything after it, so its
literal is non-empty past the sign. -/
theorem c4_amended_zero_stripping (bs : List Nat) :
    ((unpackCore true bs).1.all (· == 0) = true →
      UnpackPacked bs = .ok (if (unpackCore true bs).2 then [0x2D] else []))
    ∧ ((unpackCore true bs).1.any (· != 0) = true →
      ∃ ds, ds ≠ [] ∧
        UnpackPacked bs = .ok ((if (unpackCore true bs).2 then [0x2D] else []) ++ ds)) := by
  constructor
  · intro h
    have hd : (unpackCore true bs).1.dropWhile (· == 0) = [] := by
      rw [List.dropWhile_eq_nil_iff]
      intro x hx
      exact List.all_eq_true.mp h x hx
    simp only [UnpackPacked, hd, List.map_nil, List.append_nil]
  · intro h
    refine ⟨((unpackCore true bs).1.dropWhile (· == 0)).map (· + 0x30), ?_, rfl⟩
    have hd : (unpackCore true bs).1.dropWhile (· == 0) ≠ [] := by
      rw [Ne, List.dropWhile_eq_nil_iff]
      intro hall
      obtain ⟨x, hx, hne⟩ := List.any_eq_true.mp h
      have h0 := hall x hx
      simp only [beq_iff_eq] at h0
      simp only [bne_iff_ne] at hne
      exact hne h0
    simpa using hd

/-- C4 witness: `[0x00, 0x0C]` emits nibbles `0,0,0` (all zero) and yields
the empty literal; `[0x01, 0x2C]` emits `0,1,2` and yields a non-empty
literal. -/
theorem c4_amended_witness :
    UnpackPacked [0x00, 0x0C] = .ok []
    ∧ ∃ ds, ds ≠ [] ∧ UnpackPacked [0x01, 0x2C] = .ok ds := by
  constructor
  · have h := (c4_amended_zero_stripping [0x00, 0x0C]).1 (by decide)
    have e : (unpackCore true [0x00, 0x0C]).2 = false := by decide
    rw [e] at h
    simpa using h
  · have h := (c4_amended_zero_stripping [0x01, 0x2C]).2 (by decide)
    have e : (unpackCore true [0x01, 0x2C]).2 = false := by decide
    rw [e] at h
    simpa using h

/-! ## C9: the overpunch decoder -/

/-- C9: for every non-empty window, the final byte is looked up in the
20-entry sequence `overpunchVals`; index `i` replaces the final byte by
the digit character `i % 10 + 0x30` and prepends `-` iff `10 ≤ i`, all
other bytes passing through unchanged; a final byte outside the sequence
is an invalid-overpunch-byte error. -/
theorem c9_overpunch_decode (init : List Nat) (last : Nat) :
    overpunchVals.length = 20
    ∧ (∀ i, overpunchVals.findIdx? (· == last) = some i →
        DecodeOverpunch (init ++ [last]) =
          .ok ((if 10 ≤ i then [0x2D] else []) ++ init ++ [i % 10 + 0x30]))
    ∧ (overpunchVals.findIdx? (· == last) = none →
        DecodeOverpunch (init ++ [last]) = .err (.invalidOverpunch last)) := by
  refine ⟨rfl, ?_, ?_⟩
  · intro i hi
    unfold DecodeOverpunch DecodeOverpunchSt
    simp only [resolve, List.getLast?_concat, List.concat_eq_append, hi]
    rw [List.dropLast_concat]
    rfl
  · intro hn
    unfold DecodeOverpunch DecodeOverpunchSt
    simp only [resolve, List.getLast?_concat, List.concat_eq_append, hn]

/-- C9 witness: a window ending in `'A'` (index 1) decodes with final
digit `1` and no sign; ending in `'J'` (index 11) decodes with final digit
`1` and a leading `-`; ending in `'$'` fails. -/
theorem c9_overpunch_witness :
    DecodeOverpunch (strBytes "12A") = .ok (strBytes "121")
    ∧ DecodeOverpunch (strBytes "12J") = .ok (strBytes "-121")
    ∧ DecodeOverpunch (strBytes "12$") = .err (.invalidOverpunch 0x24) := by
  refine ⟨?_, ?_, ?_⟩
  · have h := (c9_overpunch_decode (strBytes "12") 0x41).2.1 1 (by decide)
    revert h
    decide
  · have h := (c9_overpunch_decode (strBytes "12") 0x4A).2.1 11 (by decide)
    revert h
    decide
  · have h := (c9_overpunch_decode (strBytes "12") 0x24).2.2 (by decide)
    revert h
    decide

/-! ## C1: the BINARY integer encoding reads a single byte -/

/-- C1 (code bug): with BINARY encoding the decoders take `byteVal[0]` —
the FIRST byte of the window — instead of the big-endian value of the
left-padded window the spec describes (`leftPaddedBytes` moreover places
the window at the front of the zeroed buffer, so the padding is on the
right).  At window `[0x00, 0x2A]` the code decodes `0` for uint32 and
int64 while the spec-side value is `42`. -/
theorem c1_binary_first_byte_divergence :
    (readUint32 ⟨[0x00, 0x2A], false⟩ ⟨some ⟨0, 2⟩, some ⟨.binary⟩, none, none, none⟩).1 =
      .ok (some (.u32 0))
    ∧ specBinaryBigEndian [0x00, 0x2A] 4 = 42
    ∧ (readInt64 ⟨[0x00, 0x2A], false⟩ ⟨some ⟨0, 2⟩, some ⟨.binary⟩, none, none, none⟩).1 =
      .ok (some (.i64 0))
    ∧ specBinaryBigEndian [0x00, 0x2A] 8 = 42
    ∧ leftPaddedBytes ⟨[0x00, 0x2A], false⟩ ⟨some ⟨0, 2⟩, some ⟨.binary⟩, none, none, none⟩ 4 =
      .ok [0x00, 0x2A, 0x00, 0x00] := by decide

/-! ## C10: totality of byte-window extraction -/

/-- C10 counterexample: a one-based field declaring offset 0 normalizes to
offset −1; with length 2 against a 3-byte buffer the short-record check
passes (−1 + 2 ≤ 3) and the slice expression then performs an
out-of-range access (Go runtime panic) — extraction is not total. -/
theorem c10_counterexample_offset_zero_one_based_panics :
    getBytes ⟨[5, 6, 7], true⟩ (fwOnly 0 2) = .panic := by decide

/-- C10 (amended): extraction returns a byte slice or a short-record error
for every layout whose normalized offset is non-negative (in particular
for every zero-based layout and every one-based layout with offset ≥ 1);
but a one-based layout with declared offset 0 whose length check passes
(`length ≤ len(buffer) + 1`) performs an out-of-range access, modelled as
a panic. -/
theorem getBytes_some (rec : List Nat) (ob : Bool) (fw : FixedWidth) (tc : Field)
    (hfw : tc.fixedWidth = some fw) :
    getBytes ⟨rec, ob⟩ tc =
      (if normOff ob fw.offset + (fw.length : Int) > (rec.length : Int) then .err .shortRecord
       else if normOff ob fw.offset < 0 then .panic
       else .ok (.aliased (normOff ob fw.offset).toNat fw.length)) := by
  unfold getBytes normOff
  rw [hfw]

theorem c10_amended_extraction_totality (rec : List Nat) (tc : Field) (fw : FixedWidth)
    (hfw : tc.fixedWidth = some fw) :
    (∀ ob : Bool, (ob = true → 1 ≤ fw.offset) →
      (∃ bv, getBytes ⟨rec, ob⟩ tc = .ok bv) ∨ getBytes ⟨rec, ob⟩ tc = .err .shortRecord)
    ∧ (fw.offset = 0 → fw.length ≤ rec.length + 1 →
      getBytes ⟨rec, true⟩ tc = .panic) := by
  constructor
  · intro ob hob
    rw [getBytes_some rec ob fw tc hfw]
    have hnn : 0 ≤ normOff ob fw.offset := by
      cases ob with
      | false => simp [normOff]
      | true =>
        have h1 := hob rfl
        simp only [normOff, if_true]
        omega
    by_cases hb : normOff ob fw.offset + (fw.length : Int) > (rec.length : Int)
    · rw [if_pos hb]
      exact Or.inr rfl
    · rw [if_neg hb, if_neg (show ¬(normOff ob fw.offset < 0) by omega)]
      exact Or.inl ⟨_, rfl⟩
  · intro h0 hlen
    rw [getBytes_some rec true fw tc hfw]
    have hno : normOff true fw.offset = -1 := by simp [normOff, h0]
    rw [hno]
    rw [if_neg (show ¬((-1 : Int) + (fw.length : Int) > (rec.length : Int)) by omega)]
    rw [if_pos (show (-1 : Int) < 0 by norm_num)]

/-- C10 witness: a zero-based in-bounds layout extracts; a one-based
layout with offset 0 and length 1 against a 1-byte buffer panics. -/
theorem c10_amended_witness :
    ((∃ bv, getBytes ⟨[7, 8, 9], false⟩ (fwOnly 1 2) = .ok bv)
      ∨ getBytes ⟨[7, 8, 9], false⟩ (fwOnly 1 2) = .err .shortRecord)
    ∧ getBytes ⟨[9], true⟩ (fwOnly 0 1) = .panic := by
  constructor
  · exact (c10_amended_extraction_totality [7, 8, 9] (fwOnly 1 2) ⟨1, 2⟩ rfl).1 false
      (by decide)
  · exact (c10_amended_extraction_totality [9] (fwOnly 0 1) ⟨0, 1⟩ rfl).2 rfl (by decide)

/-! ## C5: enum matching trims the key but not the extracted text -/

theorem findEnum_of_no_match (s : List Nat) :
    ∀ vals : List EnumVal, (∀ v ∈ vals, keyMatches s v = false) → findEnum s vals = none := by
  intro vals
  induction vals with
  | nil => intro _; rfl
  | cons w rest ih =>
    intro h
    have hw := h w (List.mem_cons_self _ _)
    cases hwk : w.key with
    | none =>
      simp only [findEnum, hwk]
      exact ih (fun v' hv' => h v' (List.mem_cons_of_mem _ hv'))
    | some kw =>
      have hne : ¬(trimSpace kw = s) := by
        simp only [keyMatches, hwk, decide_eq_false_iff_not] at hw
        exact hw
      simp only [findEnum, hwk, if_neg hne]
      exact ih (fun v' hv' => h v' (List.mem_cons_of_mem _ hv'))

theorem findEnum_first_match (s : List Nat) (v : EnumVal) (k : List Nat)
    (vals2 : List EnumVal) (hk : v.key = some k) (hm : trimSpace k = s) :
    ∀ vals1 : List EnumVal, (∀ v' ∈ vals1, keyMatches s v' = false) →
      findEnum s (vals1 ++ v :: vals2) = some v.number := by
  intro vals1
  induction vals1 with
  | nil =>
    intro _
    simp only [List.nil_append, findEnum, hk, if_pos hm]
  | cons w rest ih =>
    intro h
    have hw := h w (List.mem_cons_self _ _)
    rw [List.cons_append]
    cases hwk : w.key with
    | none =>
      simp only [findEnum, hwk]
      exact ih (fun v' hv' => h v' (List.mem_cons_of_mem _ hv'))
    | some kw =>
      have hne : ¬(trimSpace kw = s) := by
        simp only [keyMatches, hwk, decide_eq_false_iff_not] at hw
        exact hw
      simp only [findEnum, hwk, if_neg hne]
      exact ih (fun v' hv' => h v' (List.mem_cons_of_mem _ hv'))

/-- C5 counterexample: with window `"F "` (trailing space) and an enum
value configured with key `"F"`, the claim says the trimmed text matches
and the result is Present; but `readEnum` compares the raw, untrimmed
extracted text against the trimmed key (`strings.TrimSpace(tc.Key) ==
stringVal`), so no value matches and the non-empty trimmed text makes the
decode fail. -/
theorem c5_counterexample_untrimmed_window :
    readEnum ⟨strBytes "F ", false⟩ (fwOnly 0 2) [⟨1, some (strBytes "F")⟩] =
      .err (.invalidEnum (strBytes "F ")) := by decide

/-- C5 (amended): the decoder compares the RAW (untrimmed) extracted text
against each configured enum key (the key is trimmed) in declared order:
the first value whose trimmed key equals the raw text yields Present; if
no value matches and the trimmed extracted text is empty the result is
Absent; otherwise the decode fails with an invalid-enum-value error. -/
theorem c5_amended_enum_untrimmed_scan (rec : List Nat) (ob : Bool) (tc : Field)
    (s : List Nat) (hs : getString ⟨rec, ob⟩ tc = .ok s)
    (vals1 vals2 : List EnumVal) (v : EnumVal) (k : List Nat) :
    (v.key = some k → trimSpace k = s →
      (∀ v' ∈ vals1, keyMatches s v' = false) →
      readEnum ⟨rec, ob⟩ tc (vals1 ++ v :: vals2) = .ok (some (.enum v.number)))
    ∧ (∀ vals : List EnumVal, (∀ v' ∈ vals, keyMatches s v' = false) →
        (trimSpace s = [] → readEnum ⟨rec, ob⟩ tc vals = .ok none)
        ∧ (trimSpace s ≠ [] → readEnum ⟨rec, ob⟩ tc vals = .err (.invalidEnum s))) := by
  constructor
  · intro hk hm h1
    unfold readEnum
    rw [hs]
    dsimp only
    rw [findEnum_first_match s v k vals2 hk hm vals1 h1]
  · intro vals hno
    constructor
    · intro hempty
      unfold readEnum
      rw [hs]
      dsimp only
      rw [findEnum_of_no_match s vals hno]
      dsimp only
      rw [if_pos hempty]
    · intro hne
      unfold readEnum
      rw [hs]
      dsimp only
      rw [findEnum_of_no_match s vals hno]
      dsimp only
      rw [if_neg hne]

/-- C5 witness: exact-match window `"F"` yields Present of value 1 (the
value without the extension is skipped); an all-space window with no match
yields Absent; a non-matching non-blank window fails. -/
theorem c5_amended_witness :
    readEnum ⟨strBytes "F", false⟩ (fwOnly 0 1) [⟨0, none⟩, ⟨1, some (strBytes "F")⟩] =
      .ok (some (.enum 1))
    ∧ readEnum ⟨strBytes " ", false⟩ (fwOnly 0 1) [⟨1, some (strBytes "F")⟩] = .ok none
    ∧ readEnum ⟨strBytes "Z", false⟩ (fwOnly 0 1) [⟨1, some (strBytes "F")⟩] =
      .err (.invalidEnum (strBytes "Z")) := by
  refine ⟨?_, ?_, ?_⟩
  · exact (c5_amended_enum_untrimmed_scan (strBytes "F") false (fwOnly 0 1) (strBytes "F")
      (by decide) [⟨0, none⟩] [] ⟨1, some (strBytes "F")⟩ (strBytes "F")).1
      rfl (by decide) (by decide)
  · exact ((c5_amended_enum_untrimmed_scan (strBytes " ") false (fwOnly 0 1) (strBytes " ")
      (by decide) [] [] ⟨1, some (strBytes "F")⟩ (strBytes "F")).2
      [⟨1, some (strBytes "F")⟩] (by decide)).1 (by decide)
  · exact ((c5_amended_enum_untrimmed_scan (strBytes "Z") false (fwOnly 0 1) (strBytes "Z")
      (by decide) [] [] ⟨1, some (strBytes "F")⟩ (strBytes "F")).2
      [⟨1, some (strBytes "F")⟩] (by decide)).2 (by decide)

/-! ## C6: window extraction and one-based/zero-based equivalence -/

theorem normOff_true (off : Nat) : normOff true off = (off : Int) - 1 := rfl

theorem normOff_false (off : Nat) : normOff false off = (off : Int) := rfl

theorem getBytes_bump (rec : List Nat) (tc : Field) :
    getBytes ⟨rec, true⟩ (bumpField tc) = getBytes ⟨rec, false⟩ tc := by
  cases hfw : tc.fixedWidth with
  | none =>
    have h2 : (bumpField tc).fixedWidth = none := by simp [bumpField, hfw]
    unfold getBytes
    rw [h2, hfw]
  | some fw =>
    have h2 : (bumpField tc).fixedWidth = some ⟨fw.offset + 1, fw.length⟩ := by
      simp [bumpField, hfw]
    rw [getBytes_some rec true ⟨fw.offset + 1, fw.length⟩ (bumpField tc) h2,
        getBytes_some rec false fw tc hfw]
    have e : normOff true (fw.offset + 1) = normOff false fw.offset := by
      rw [normOff_true, normOff_false]
      push_cast
      ring
    rw [e]

theorem getString_bump (rec : List Nat) (tc : Field) :
    getString ⟨rec, true⟩ (bumpField tc) = getString ⟨rec, false⟩ tc := by
  unfold getString
  rw [getBytes_bump]

theorem getNumberString_bump (rec : List Nat) (tc : Field) :
    getNumberString ⟨rec, true⟩ (bumpField tc) = getNumberString ⟨rec, false⟩ tc := by
  unfold getNumberString
  rw [getString_bump]
  rfl

theorem leftPaddedBytes_bump (rec : List Nat) (tc : Field) (tl : Nat) :
    leftPaddedBytes ⟨rec, true⟩ (bumpField tc) tl = leftPaddedBytes ⟨rec, false⟩ tc tl := by
  cases hfw : tc.fixedWidth with
  | none =>
    have h2 : (bumpField tc).fixedWidth = none := by simp [bumpField, hfw]
    unfold leftPaddedBytes
    rw [h2, hfw]
  | some fw =>
    have h2 : (bumpField tc).fixedWidth = some ⟨fw.offset + 1, fw.length⟩ := by
      simp [bumpField, hfw]
    unfold leftPaddedBytes
    rw [h2, hfw]
    dsimp only
    rw [getBytes_bump]

theorem readString_bump (rec : List Nat) (tc : Field) :
    readString ⟨rec, true⟩ (bumpField tc) = readString ⟨rec, false⟩ tc := by
  unfold readString
  rw [getString_bump]
  rfl

theorem readStringValue_bump (rec : List Nat) (tc : Field) :
    readStringValue ⟨rec, true⟩ (bumpField tc) = readStringValue ⟨rec, false⟩ tc := by
  unfold readStringValue
  rw [getString_bump]
  rfl

theorem readBoolValue_bump (rec : List Nat) (tc : Field) :
    readBoolValue ⟨rec, true⟩ (bumpField tc) = readBoolValue ⟨rec, false⟩ tc := by
  unfold readBoolValue
  rw [getString_bump]
  rfl

theorem readDecimal_bump (rec : List Nat) (tc : Field) :
    readDecimal ⟨rec, true⟩ (bumpField tc) = readDecimal ⟨rec, false⟩ tc := by
  unfold readDecimal
  rw [getNumberString_bump]

theorem readDate_bump (rec : List Nat) (tc : Field) :
    readDate ⟨rec, true⟩ (bumpField tc) = readDate ⟨rec, false⟩ tc := by
  unfold readDate
  rw [getString_bump]
  rfl

theorem readEnum_bump (rec : List Nat) (tc : Field) (vals : List EnumVal) :
    readEnum ⟨rec, true⟩ (bumpField tc) vals = readEnum ⟨rec, false⟩ tc vals := by
  unfold readEnum
  rw [getString_bump]

theorem unsignedStringNumber_bump (rec : List Nat) (tc : Field) (size : Nat) :
    unsignedStringNumber ⟨rec, true⟩ (bumpField tc) size =
      unsignedStringNumber ⟨rec, false⟩ tc size := by
  unfold unsignedStringNumber
  rw [getNumberString_bump]

theorem signedStringNumber_bump (rec : List Nat) (tc : Field) (size : Nat) :
    signedStringNumber ⟨rec, true⟩ (bumpField tc) size =
      signedStringNumber ⟨rec, false⟩ tc size := by
  unfold signedStringNumber
  rw [getNumberString_bump]

theorem readUint32_bump (rec : List Nat) (tc : Field) :
    readUint32 ⟨rec, true⟩ (bumpField tc) = readUint32 ⟨rec, false⟩ tc := by
  unfold readUint32
  rw [leftPaddedBytes_bump, unsignedStringNumber_bump]
  rfl

theorem readUint64_bump (rec : List Nat) (tc : Field) :
    readUint64 ⟨rec, true⟩ (bumpField tc) = readUint64 ⟨rec, false⟩ tc := by
  unfold readUint64
  rw [leftPaddedBytes_bump, unsignedStringNumber_bump]
  rfl

theorem readInt32_bump (rec : List Nat) (tc : Field) :
    readInt32 ⟨rec, true⟩ (bumpField tc) = readInt32 ⟨rec, false⟩ tc := by
  unfold readInt32
  rw [leftPaddedBytes_bump, signedStringNumber_bump]
  rfl

theorem readInt64_bump (rec : List Nat) (tc : Field) :
    readInt64 ⟨rec, true⟩ (bumpField tc) = readInt64 ⟨rec, false⟩ tc := by
  unfold readInt64
  rw [leftPaddedBytes_bump, signedStringNumber_bump]
  rfl

theorem ReadField_bump (rec : List Nat) (fd : FieldDesc) :
    ReadField ⟨rec, true⟩ (bumpDesc fd) = ReadField ⟨rec, false⟩ fd := by
  cases hext : fd.ext with
  | none =>
    have h2 : (bumpDesc fd).ext = none := by simp [bumpDesc, hext]
    unfold ReadField
    rw [h2, hext]
  | some tc =>
    have h2 : (bumpDesc fd).ext = some (bumpField tc) := by simp [bumpDesc, hext]
    unfold ReadField
    rw [h2, hext]
    dsimp only
    cases hfw : tc.fixedWidth with
    | none =>
      have h3 : (bumpField tc).fixedWidth = none := by simp [bumpField, hfw]
      rw [h3]
    | some fw =>
      have h3 : (bumpField tc).fixedWidth = some ⟨fw.offset + 1, fw.length⟩ := by
        simp [bumpField, hfw]
      rw [h3]
      dsimp only
      have hk : (bumpDesc fd).kind = fd.kind := rfl
      rw [hk]
      cases fd.kind with
      | message m =>
        cases m with
        | stringValue => dsimp only; rw [readStringValue_bump]
        | boolValue => dsimp only; rw [readBoolValue_bump]
        | decimalMsg => dsimp only; rw [readDecimal_bump]
        | dateMsg => dsimp only; rw [readDate_bump]
        | otherMsg n => rfl
      | stringKind => dsimp only; rw [readString_bump]
      | boolKind => dsimp only; rw [readBoolValue_bump]
      | enumKind vals => dsimp only; rw [readEnum_bump]
      | uint32Kind => dsimp only; rw [readUint32_bump]
      | uint64Kind => dsimp only; rw [readUint64_bump]
      | int32Kind => dsimp only; rw [readInt32_bump]
      | int64Kind => dsimp only; rw [readInt64_bump]
      | otherKind => rfl

theorem getString_zero_based (rec : List Nat) (tc : Field) (off len : Nat)
    (hfw : tc.fixedWidth = some ⟨off, len⟩) :
    getString ⟨rec, false⟩ tc =
      if off + len ≤ rec.length then .ok ((rec.drop off).take len)
      else .err .shortRecord := by
  unfold getString
  rw [getBytes_some rec false ⟨off, len⟩ tc hfw, normOff_false]
  dsimp only
  by_cases h : off + len ≤ rec.length
  · rw [if_neg (show ¬((off : Int) + (len : Int) > (rec.length : Int)) by omega)]
    rw [if_neg (show ¬((off : Int) < 0) by omega)]
    rw [if_pos h]
    dsimp only [resolve]
    rw [Int.toNat_natCast]
  · rw [if_pos (show (off : Int) + (len : Int) > (rec.length : Int) by omega)]
    rw [if_neg h]

/-- C6: for every buffer and field window, zero-based extraction returns
exactly `length` bytes starting at the offset when `offset+length` fits in
the buffer, and fails with the short-record error when it does not; and a
one-based field declaring offset o+1 decodes identically (for EVERY field
kind and configuration) to a zero-based field declaring offset o on the
same buffer. -/
theorem c6_extract_exact_window (rec : List Nat) (tc : Field) (off len : Nat)
    (fd : FieldDesc) (hfw : tc.fixedWidth = some ⟨off, len⟩) :
    (off + len ≤ rec.length →
      getString ⟨rec, false⟩ tc = .ok ((rec.drop off).take len)
      ∧ ((rec.drop off).take len).length = len)
    ∧ (rec.length < off + len →
      getString ⟨rec, false⟩ tc = .err .shortRecord)
    ∧ ReadField ⟨rec, true⟩ (bumpDesc fd) = ReadField ⟨rec, false⟩ fd := by
  refine ⟨?_, ?_, ReadField_bump rec fd⟩
  · intro hle
    constructor
    · rw [getString_zero_based rec tc off len hfw, if_pos hle]
    · simp only [List.length_take, List.length_drop]
      omega
  · intro hgt
    rw [getString_zero_based rec tc off len hfw, if_neg (by omega)]

/-- C6 witness: on the buffer `[10, 20, 30, 40]`, the window (1, 2)
extracts exactly `[20, 30]`; the window (3, 2) overruns and fails; and a
one-based trim-both string field at offset 1 decodes like the zero-based
field at offset 0. -/
theorem c6_extract_witness :
    (getString ⟨[10, 20, 30, 40], false⟩ (fwOnly 1 2) = .ok [20, 30]
      ∧ (([10, 20, 30, 40].drop 1).take 2).length = 2)
    ∧ getString ⟨[10, 20, 30, 40], false⟩ (fwOnly 3 2) = .err .shortRecord
    ∧ ReadField ⟨strBytes "ab ", true⟩
        (bumpDesc ⟨"f", .stringKind, some ⟨some ⟨0, 3⟩, none, some ⟨.both, []⟩, none, none⟩⟩) =
      ReadField ⟨strBytes "ab ", false⟩
        ⟨"f", .stringKind, some ⟨some ⟨0, 3⟩, none, some ⟨.both, []⟩, none, none⟩⟩ := by
  refine ⟨⟨?_, ?_⟩, ?_, ?_⟩
  · have h := ((c6_extract_exact_window [10, 20, 30, 40] (fwOnly 1 2) 1 2
      ⟨"f", .stringKind, none⟩ rfl).1 (by decide)).1
    revert h
    decide
  · exact ((c6_extract_exact_window [10, 20, 30, 40] (fwOnly 1 2) 1 2
      ⟨"f", .stringKind, none⟩ rfl).1 (by decide)).2
  · exact (c6_extract_exact_window [10, 20, 30, 40] (fwOnly 3 2) 3 2
      ⟨"f", .stringKind, none⟩ rfl).2.1 (by decide)
  · exact (c6_extract_exact_window (strBytes "ab ") (fwOnly 0 3) 0 3
      ⟨"f", .stringKind, some ⟨some ⟨0, 3⟩, none, some ⟨.both, []⟩, none, none⟩⟩ rfl).2.2

/-! ## C8: date decoding with format `YYYY-MM-DD` -/

/-- C8: for a date field with format `YYYY-MM-DD`, an extracted window that
is all spaces (the template's length, 10), or exactly `0000-00-00`, or a
schema-declared zero-value, yields Absent; `2003-01-02` (when not declared
as a zero-value) yields Present(2003, 1, 2); and any non-sentinel window
that does not parse against the `2006-01-02` layout fails with an
invalid-date error. -/
theorem c8_date_yyyy_mm_dd (rec : List Nat) (ob : Bool) (tc : Field) (df : DateField)
    (s : List Nat) (hdf : tc.date = some df) (hfmt : df.format = strBytes "YYYY-MM-DD")
    (hs : getString ⟨rec, ob⟩ tc = .ok s) :
    (s = List.replicate 10 0x20 → readDate ⟨rec, ob⟩ tc = .ok none)
    ∧ (s = strBytes "0000-00-00" → readDate ⟨rec, ob⟩ tc = .ok none)
    ∧ (s ∈ df.zeroVals → readDate ⟨rec, ob⟩ tc = .ok none)
    ∧ (s = strBytes "2003-01-02" → s ∉ df.zeroVals →
        readDate ⟨rec, ob⟩ tc = .ok (some (.date 2003 1 2)))
    ∧ (s ∉ dateEmptyVals df → timeParse (strBytes "2006-01-02") s = none →
        readDate ⟨rec, ob⟩ tc = .err (.invalidDate s)) := by
  have hne : ¬(df.format = []) := by
    rw [hfmt]
    decide
  have hlayout : goTimeFormat df.format = strBytes "2006-01-02" := by
    rw [hfmt]
    decide
  have hbase : readDate ⟨rec, ob⟩ tc =
      (if s ∈ dateEmptyVals df then .ok none
       else
         match timeParse (strBytes "2006-01-02") s with
         | none => .err (.invalidDate s)
         | some (y, m, d) => .ok (some (.date y m d))) := by
    unfold readDate
    rw [hdf]
    dsimp only
    rw [if_neg hne, hs]
    dsimp only
    rw [hlayout]
  have hev : dateEmptyVals df =
      [strBytes "          ", strBytes "0000-00-00", strBytes "    -  -  "] ++ df.zeroVals := by
    unfold dateEmptyVals
    rw [hfmt]
    have h1 : List.replicate (strBytes "YYYY-MM-DD").length 0x20 = strBytes "          " := by
      decide
    have h2 : (strBytes "YYYY-MM-DD").map (fun c => if isMDYByte c then 0x30 else c) =
        strBytes "0000-00-00" := by decide
    have h3 : (strBytes "YYYY-MM-DD").map (fun c => if isMDYByte c then 0x20 else c) =
        strBytes "    -  -  " := by decide
    rw [h1, h2, h3]
  refine ⟨?_, ?_, ?_, ?_, ?_⟩
  · intro h1s
    have hm : s ∈ dateEmptyVals df := by
      rw [hev, h1s]
      exact List.mem_append_left _ (by decide)
    rw [hbase, if_pos hm]
  · intro h2s
    have hm : s ∈ dateEmptyVals df := by
      rw [hev, h2s]
      exact List.mem_append_left _ (by decide)
    rw [hbase, if_pos hm]
  · intro h3s
    have hm : s ∈ dateEmptyVals df := by
      rw [hev]
      exact List.mem_append_right _ h3s
    rw [hbase, if_pos hm]
  · intro h4s h4nz
    have hnm : s ∉ dateEmptyVals df := by
      rw [hev]
      intro hmem
      rcases List.mem_append.mp hmem with h | h
      · rw [h4s] at h
        revert h
        decide
      · exact h4nz h
    have htp : timeParse (strBytes "2006-01-02") s = some (2003, 1, 2) := by
      rw [h4s]
      decide
    rw [hbase, if_neg hnm, htp]
  · intro h5nm h5tp
    rw [hbase, if_neg h5nm, h5tp]

/-- C8 witness: the all-space window and `0000-00-00` are Absent,
`2003-01-02` is Present(2003, 1, 2), and `2003-13-02` (month out of
range) is an invalid-date error, for a `YYYY-MM-DD` field with no
declared zero-values. -/
theorem c8_date_witness :
    readDate ⟨strBytes "          ", false⟩
      ⟨some ⟨0, 10⟩, none, none, none, some ⟨strBytes "YYYY-MM-DD", []⟩⟩ = .ok none
    ∧ readDate ⟨strBytes "0000-00-00", false⟩
      ⟨some ⟨0, 10⟩, none, none, none, some ⟨strBytes "YYYY-MM-DD", []⟩⟩ = .ok none
    ∧ readDate ⟨strBytes "2003-01-02", false⟩
      ⟨some ⟨0, 10⟩, none, none, none, some ⟨strBytes "YYYY-MM-DD", []⟩⟩ =
      .ok (some (.date 2003 1 2))
    ∧ readDate ⟨strBytes "2003-13-02", false⟩
      ⟨some ⟨0, 10⟩, none, none, none, some ⟨strBytes "YYYY-MM-DD", []⟩⟩ =
      .err (.invalidDate (strBytes "2003-13-02")) := by
  refine ⟨?_, ?_, ?_, ?_⟩
  · exact (c8_date_yyyy_mm_dd (strBytes "          ") false
      ⟨some ⟨0, 10⟩, none, none, none, some ⟨strBytes "YYYY-MM-DD", []⟩⟩
      ⟨strBytes "YYYY-MM-DD", []⟩ (strBytes "          ")
      rfl rfl (by decide)).1 (by decide)
  · exact (c8_date_yyyy_mm_dd (strBytes "0000-00-00") false
      ⟨some ⟨0, 10⟩, none, none, none, some ⟨strBytes "YYYY-MM-DD", []⟩⟩
      ⟨strBytes "YYYY-MM-DD", []⟩ (strBytes "0000-00-00")
      rfl rfl (by decide)).2.1 (by decide)
  · exact (c8_date_yyyy_mm_dd (strBytes "2003-01-02") false
      ⟨some ⟨0, 10⟩, none, none, none, some ⟨strBytes "YYYY-MM-DD", []⟩⟩
      ⟨strBytes "YYYY-MM-DD", []⟩ (strBytes "2003-01-02")
      rfl rfl (by decide)).2.2.2.1 rfl (by decide)
  · exact (c8_date_yyyy_mm_dd (strBytes "2003-13-02") false
      ⟨some ⟨0, 10⟩, none, none, none, some ⟨strBytes "YYYY-MM-DD", []⟩⟩
      ⟨strBytes "YYYY-MM-DD", []⟩ (strBytes "2003-13-02")
      rfl rfl (by decide)).2.2.2.2 (by decide) (by decide)

/-! ## C7: declared order, first-error abort, Absent skipping -/

theorem parseLoop_cons_none (r : Reader) (g : FieldDesc) (rest : List FieldDesc)
    (h : (ReadField r g).1 = .ok none) :
    parseLoop r (g :: rest) = parseLoop r rest := by
  have hrec := ReadField_record r g
  rcases hR : ReadField r g with ⟨res, rec1⟩
  rw [hR] at h hrec
  simp only at h hrec
  subst hrec
  subst h
  simp only [parseLoop]
  rw [hR]

theorem parseLoop_cons_some (r : Reader) (g : FieldDesc) (rest : List FieldDesc)
    (w : Value) (h : (ReadField r g).1 = .ok (some w)) :
    parseLoop r (g :: rest) =
      (match parseLoop r rest with
       | (.ok sets, rec2) => (.ok ((g.name, w) :: sets), rec2)
       | (.err e, rec2) => (.err e, rec2)
       | (.panic, rec2) => (.panic, rec2)) := by
  have hrec := ReadField_record r g
  rcases hR : ReadField r g with ⟨res, rec1⟩
  rw [hR] at h hrec
  simp only at h hrec
  subst hrec
  subst h
  simp only [parseLoop]
  rw [hR]

theorem parseLoop_pre_error (r : Reader) (fd : FieldDesc) (e : Err) (post : List FieldDesc) :
    ∀ pre : List FieldDesc,
      (∀ g ∈ pre, ∃ v, (ReadField r g).1 = .ok v) →
      (ReadField r fd).1 = .err e →
      (parseLoop r (pre ++ fd :: post)).1 = .err (.fieldErr fd.name e) := by
  intro pre
  induction pre with
  | nil =>
    intro _ herr
    have hrec := ReadField_record r fd
    rcases hR : ReadField r fd with ⟨res, rec1⟩
    rw [hR] at herr hrec
    simp only at herr hrec
    subst hrec
    subst herr
    rw [List.nil_append]
    simp only [parseLoop]
    rw [hR]
  | cons g rest ih =>
    intro hpre herr
    obtain ⟨v, hv⟩ := hpre g (List.mem_cons_self _ _)
    have ih2 := ih (fun g' hg' => hpre g' (List.mem_cons_of_mem _ hg')) herr
    rw [List.cons_append]
    cases v with
    | none =>
      rw [parseLoop_cons_none r g (rest ++ fd :: post) hv]
      exact ih2
    | some w =>
      rw [parseLoop_cons_some r g (rest ++ fd :: post) w hv]
      rcases hP : parseLoop r (rest ++ fd :: post) with ⟨res2, rec2⟩
      rw [hP] at ih2
      simp only at ih2
      subst ih2
      rfl

theorem parseLoop_pre_absent (r : Reader) (fd : FieldDesc) (post : List FieldDesc)
    (habs : (ReadField r fd).1 = .ok none) :
    ∀ pre : List FieldDesc,
      parseLoop r (pre ++ fd :: post) = parseLoop r (pre ++ post) := by
  intro pre
  induction pre with
  | nil =>
    rw [List.nil_append, List.nil_append, parseLoop_cons_none r fd post habs]
  | cons g rest ih =>
    rw [List.cons_append, List.cons_append]
    have hrec := ReadField_record r g
    rcases hR : ReadField r g with ⟨res, rec1⟩
    rw [hR] at hrec
    simp only at hrec
    subst hrec
    simp only [parseLoop]
    rw [hR]
    cases res with
    | panic => rfl
    | err e2 => rfl
    | ok v =>
      cases v with
      | none => exact ih
      | some w =>
        dsimp only
        rw [show (⟨r.record, r.oneBased⟩ : Reader) = r from rfl, ih]

/-- C7: fields are processed in the schema's declared order; when every
field before `fd` decodes without error, a decode error at `fd` aborts the
whole record decode with that error wrapped in `fd`'s identity,
independently of every later field; and an Absent result at `fd` leaves
the output exactly as if `fd` were not present (no output entry, decoding
continues with the remaining fields). -/
theorem c7_first_error_aborts (data : List Nat) (ob : Bool) (pre post : List FieldDesc)
    (fd : FieldDesc) (e : Err)
    (hpre : ∀ g ∈ pre, ∃ v, (ReadField ⟨data, ob⟩ g).1 = .ok v) :
    ((ReadField ⟨data, ob⟩ fd).1 = .err e →
      (ParseMessage ⟨ob, pre ++ fd :: post⟩ data).1 = .err (.fieldErr fd.name e))
    ∧ ((ReadField ⟨data, ob⟩ fd).1 = .ok none →
      ParseMessage ⟨ob, pre ++ fd :: post⟩ data = ParseMessage ⟨ob, pre ++ post⟩ data) := by
  constructor
  · intro herr
    exact parseLoop_pre_error ⟨data, ob⟩ fd e post pre hpre herr
  · intro habs
    exact parseLoop_pre_absent ⟨data, ob⟩ fd post habs pre

/-- C7 witness: on `"AB"`, a default-config bool field at offset 1 sees
token `"B"` (neither a true nor a false token, policy ERROR) and the
record decode aborts with the error wrapped in that field's name, the
later field never mattering; and on `"A "`, a trim-both StringValue field
seeing a blank window is Absent and decoding proceeds as if the field were
not declared. -/
theorem c7_orchestrator_witness :
    (ParseMessage ⟨false, [⟨"s1", .stringKind, some (fwOnly 0 1)⟩,
        ⟨"b1", .boolKind, some (fwOnly 1 1)⟩,
        ⟨"s2", .stringKind, some (fwOnly 0 1)⟩]⟩ (strBytes "AB")).1 =
      .err (.fieldErr "b1" .missingBool)
    ∧ ParseMessage ⟨false, [⟨"s1", .stringKind, some (fwOnly 0 1)⟩,
        ⟨"sv", .message .stringValue, some ⟨some ⟨1, 1⟩, none, some ⟨.both, []⟩, none, none⟩⟩,
        ⟨"s2", .stringKind, some (fwOnly 0 1)⟩]⟩ (strBytes "A ") =
      ParseMessage ⟨false, [⟨"s1", .stringKind, some (fwOnly 0 1)⟩,
        ⟨"s2", .stringKind, some (fwOnly 0 1)⟩]⟩ (strBytes "A ") := by
  constructor
  · exact (c7_first_error_aborts (strBytes "AB") false
      [⟨"s1", .stringKind, some (fwOnly 0 1)⟩]
      [⟨"s2", .stringKind, some (fwOnly 0 1)⟩]
      ⟨"b1", .boolKind, some (fwOnly 1 1)⟩ .missingBool
      (by
        intro g hg
        rw [List.mem_singleton] at hg
        subst hg
        exact ⟨some (.str (strBytes "A")), by decide⟩)).1 (by decide)
  · exact (c7_first_error_aborts (strBytes "A ") false
      [⟨"s1", .stringKind, some (fwOnly 0 1)⟩]
      [⟨"s2", .stringKind, some (fwOnly 0 1)⟩]
      ⟨"sv", .message .stringValue, some ⟨some ⟨1, 1⟩, none, some ⟨.both, []⟩, none, none⟩⟩
      .missingBool
      (by
        intro g hg
        rw [List.mem_singleton] at hg
        subst hg
        exact ⟨some (.str (strBytes "A")), by decide⟩)).2 (by decide)

end Binfile
